import Mathlib

/-!
# Verification of the chaser-gt challenge signing and verification engine

A shallow embedding, in Lean 4, of the core of the `chaser-gt` Rust library:
the proof-of-work search (`src/crypto/pow.rs`), the lot-number slicing
parser (`src/sign.rs`), the hybrid-encryption dispatch
(`src/crypto/mod.rs`, `src/crypto/aes_enc.rs`, `src/crypto/rsa_enc.rs`)
and the bounded continue-retry loop of `Geeked::solve` (`src/client.rs`).

Machine integers that matter are modelled as `Nat` with explicit clamping
where the Rust code clamps; fallible Rust functions returning `Result`
become `Except`; randomness (nonces, session keys, RSA padding bytes) is
passed in explicitly as parameters; the AES block function and the named
hash digests, which live in external crates, are parameters of the
embedding.
-/

namespace ChaserGT

/-! ## Generic character/byte utilities -/

/-- Prefix test: `startsWithChars l p` is `true` iff `p` is a prefix of
`l`; this embeds Rust's `str::starts_with` at the character-list level. -/
def startsWithChars : List Char → List Char → Bool
  | _, [] => true
  | [], _ :: _ => false
  | c :: cs, p :: ps => c = p && startsWithChars cs ps

/-- Split a character list on a (non-empty) separator, embedding Rust's
`str::split(sep)`. The first argument is fuel (instantiated with the list
length); each step consumes at least one character. -/
def splitOnAux (sep : List Char) : Nat → List Char → List Char → List (List Char)
  | _, acc, [] => [acc.reverse]
  | 0, acc, l => [acc.reverse ++ l]
  | fuel + 1, acc, c :: cs =>
    if startsWithChars (c :: cs) sep then
      acc.reverse :: splitOnAux sep fuel [] ((c :: cs).drop sep.length)
    else
      splitOnAux sep fuel (c :: acc) cs

/-- Rust `str::split` over characters: always yields at least one piece;
`"".split(sep)` yields `[""]`. -/
def splitOnChars (sep l : List Char) : List (List Char) :=
  splitOnAux sep l.length [] l

/-- Numeric value of a decimal digit string. -/
def digitsToNat (ds : List Char) : Nat :=
  ds.foldl (fun a c => a * 10 + (c.toNat - 48)) 0

/-- Rust `"<digits>".parse::<i32>().ok().unwrap_or(0)`: a digit string
parses to its value if it fits in `i32`, and to the fallback `0` on
overflow (`src/sign.rs` lines 59-66). -/
def parseI32OrZero (ds : List Char) : Nat :=
  let v := digitsToNat ds
  if v ≤ 2147483647 then v else 0

/-! ## LotParser (`src/sign.rs`) -/

/-- Leftmost match of the regex `\[(\d+):(\d+)\]` starting exactly at the
head of the list: `[`, one or more digits, `:`, one or more digits, `]`.
Since a digit run is maximal and is followed by a non-digit in the
pattern, greedy matching with no backtracking is exact. -/
def matchSliceAt (cs : List Char) : Option (Nat × Nat) :=
  match cs with
  | '[' :: rest =>
    match rest.span (·.isDigit) with
    | (d1, ':' :: r2) =>
      if d1.isEmpty then none else
        match r2.span (·.isDigit) with
        | (d2, ']' :: _) =>
          if d2.isEmpty then none else some (parseI32OrZero d1, parseI32OrZero d2)
        | _ => none
    | _ => none
  | _ => none

/-- Leftmost match of `\[(\d+):(\d+)\]` anywhere in the list, embedding
`slice_re.captures(sub)` from `LotParser::parse_pattern`. -/
def findSlice : List Char → Option (Nat × Nat)
  | [] => none
  | c :: rest =>
    match matchSliceAt (c :: rest) with
    | some p => some p
    | none => findSlice rest

/-- The compile step `LotParser::parse_pattern` (`src/sign.rs` lines 45-77): split the
pattern on the literal token `+.+` into groups, split each group on `+`,
keep for each piece the first `[start:end]` slice match, and drop empty
groups. The compiled program is a list of groups of `(start, end)`
pairs. -/
def parse_pattern (pattern : String) : List (List (Nat × Nat)) :=
  let parts := splitOnChars "+.+".data pattern.data
  (parts.map fun part =>
    let subs := splitOnChars ['+'] part
    subs.filterMap findSlice).filter (fun g => !g.isEmpty)

/-- The slice extraction of `LotParser::build_string` (`src/sign.rs` lines
88-98): `chars.get(start..(end+1).min(chars.len()))`, with `None` (when
`start` exceeds the clamped upper bound) replaced by the empty string.
For the pairs produced by `parse_pattern`, `slice.len() > 1` always holds,
so the upper index is always `end + 1`. -/
def rustSlice (chars : List Char) (sl : Nat × Nat) : List Char :=
  let start := sl.1
  let stop := min (sl.2 + 1) chars.length
  if start ≤ stop then (chars.drop start).take (stop - start) else []

/-- The evaluator `LotParser::build_string` (`src/sign.rs` lines 80-104): per group,
concatenate the extracted slices of the lot number; join the group strings
with `"."`. -/
def build_string (parsed : List (List (Nat × Nat))) (lot_number : String) : String :=
  String.intercalate "."
    (parsed.map fun group =>
      String.join (group.map fun sl => (rustSlice lot_number.data sl).asString))

/-- Compiled slicing programs of a `LotParser`: the key program `lot` and
the value program `lot_res` (`src/sign.rs` lines 10-13). -/
structure LotParser where
  lot : List (List (Nat × Nat))
  lot_res : List (List (Nat × Nat))

/-- The nested JSON-like values built by `LotParser::get_dict`
(`serde_json::Value` restricted to the shapes the function creates). -/
inductive JValue where
  | str (s : String)
  | obj (fields : List (String × JValue))

/-- The nested-structure construction loop of `LotParser::get_dict`
(`src/sign.rs` lines 119-141): every key segment but the last opens one
fresh nesting level; the last segment maps to the value string. Each level
receives exactly one key, so the imperative `entry`/`or_insert` walk is
this recursion; the `[]` case is the (dead) `parts.is_empty()` guard. -/
def insertNested (valueStr : String) : List String → JValue
  | [] => .obj []
  | [p] => .obj [(p, .str valueStr)]
  | p :: rest => .obj [(p, insertNested valueStr rest)]

/-- The function `LotParser::get_dict` (`src/sign.rs` lines 112-144): build the key and
value strings, split the key string on `'.'`, and nest. -/
def get_dict (p : LotParser) (lot_number : String) : JValue :=
  let keyStr := build_string p.lot lot_number
  let valueStr := build_string p.lot_res lot_number
  let parts := (splitOnChars ['.'] keyStr.data).map List.asString
  insertNested valueStr parts

/-- Number of entries at the top level of a `JValue`. -/
def topEntries : JValue → Nat
  | .obj fields => fields.length
  | .str _ => 0

/-! ## Proof of work (`src/crypto/pow.rs`) -/

/-- Result of the PoW search (`src/crypto/pow.rs` lines 10-14). -/
structure PowResult where
  pow_msg : String
  pow_sign : String
deriving DecidableEq

/-- The check `verify_pow` (`src/crypto/pow.rs` lines 81-102): the digest must start
with the all-zero nibble string, and when `bits % 4 ≠ 0` the character at
index `bit_division` must be at most the threshold character `'7'`/`'3'`/
`'1'` for remainder `1`/`2`/`3`. -/
def verify_pow (hash : List Char) (pfx : List Char) (bit_remainder bit_division : Nat) : Bool :=
  if !startsWithChars hash pfx then false
  else if bit_remainder = 0 then true
  else
    match hash[bit_division]? with
    | some nextChar =>
      match bit_remainder with
      | 1 => decide (nextChar ≤ '7')
      | 2 => decide (nextChar ≤ '3')
      | 3 => decide (nextChar ≤ '1')
      | _ => false
    | none => false

/-- The brute-force loop of `generate_pow` (`src/crypto/pow.rs` lines
48-77), with the random nonce stream made explicit as a list (the Rust
loop is unbounded; the embedding returns `none` when the supplied stream
is exhausted without a hit). `hashHex` stands for the named digest
(`md5`/`sha1`/`sha256` from external crates) composed with lowercase hex
encoding. -/
def powSearch (hashHex : String → String) (powBase : String) (pfx : List Char)
    (bit_remainder bit_division : Nat) : List String → Option PowResult
  | [] => none
  | nonce :: rest =>
    let pow_msg := powBase ++ nonce
    let hash := hashHex pow_msg
    if verify_pow hash.data pfx bit_remainder bit_division then
      some ⟨pow_msg, hash⟩
    else
      powSearch hashHex powBase pfx bit_remainder bit_division rest

/-- The search `generate_pow` (`src/crypto/pow.rs` lines 31-78): fixed message base
`version|bits|hash_func|datetime|captcha_id|lot_number||`, then the nonce
search. -/
def generate_pow (hashHex : String → String) (nonces : List String)
    (lot_number captcha_id hash_func version : String) (bits : Nat)
    (datetime : String) : Option PowResult :=
  let bit_division := bits / 4
  let bit_remainder := bits % 4
  let pfx := List.replicate bit_division '0'
  let powBase := version ++ "|" ++ toString bits ++ "|" ++ hash_func ++ "|" ++
    datetime ++ "|" ++ captcha_id ++ "|" ++ lot_number ++ "||"
  powSearch hashHex powBase pfx bit_remainder bit_division nonces

/-- The sixteen lowercase hex digit characters, the alphabet of
`hex::encode` digests. -/
def hexDigitChars : List Char := "0123456789abcdef".data

/-- Numeric value of a lowercase hex digit character. -/
def hexNibbleVal (c : Char) : Nat :=
  if c.isDigit then c.toNat - 48 else c.toNat - 87

/-- The nibble threshold of the spec: remainder `1 → 7`, `2 → 3`,
`3 → 1`. -/
def nibbleThreshold : Nat → Nat
  | 1 => 7
  | 2 => 3
  | 3 => 1
  | _ => 15

/-! ## Bytes, hex and percent encoding (`src/crypto/mod.rs`) -/

/-- The UTF-8 encoding of one character (Rust `str::as_bytes` is the UTF-8
byte sequence). -/
def utf8EncodeChar (c : Char) : List Nat :=
  let n := c.toNat
  if n < 128 then [n]
  else if n < 2048 then [192 ||| (n >>> 6), 128 ||| (n &&& 63)]
  else if n < 65536 then
    [224 ||| (n >>> 12), 128 ||| ((n >>> 6) &&& 63), 128 ||| (n &&& 63)]
  else
    [240 ||| (n >>> 18), 128 ||| ((n >>> 12) &&& 63),
     128 ||| ((n >>> 6) &&& 63), 128 ||| (n &&& 63)]

/-- The UTF-8 bytes of a string, as `Nat`s below 256. -/
def strBytes (s : String) : List Nat :=
  (s.data.map utf8EncodeChar).flatten

/-- Lowercase hex digit character of a value below 16. -/
def hexDigitL (n : Nat) : Char :=
  if n < 10 then Char.ofNat (48 + n) else Char.ofNat (87 + n)

/-- Uppercase hex digit character of a value below 16. -/
def hexDigitU (n : Nat) : Char :=
  if n < 10 then Char.ofNat (48 + n) else Char.ofNat (55 + n)

/-- Two lowercase hex characters of one byte. -/
def byteHexChars (b : Nat) : List Char := [hexDigitL (b / 16), hexDigitL (b % 16)]

/-- Rust `hex::encode`: lowercase hex string of a byte list. -/
def hexEncode (bytes : List Nat) : String :=
  ((bytes.map byteHexChars).flatten).asString

/-- The bytes the `urlencoding` crate leaves unencoded: ASCII
alphanumerics and `-`, `.`, `_`, `~`. -/
def isUrlSafe (b : Nat) : Bool :=
  (48 ≤ b && b ≤ 57) || (65 ≤ b && b ≤ 90) || (97 ≤ b && b ≤ 122) ||
    b == 45 || b == 46 || b == 95 || b == 126

/-- Percent-encoding of one byte: kept verbatim when safe, otherwise
`%XY` with uppercase hex. -/
def percentEncodeByte (b : Nat) : List Char :=
  if isUrlSafe b then [Char.ofNat b] else ['%', hexDigitU (b / 16), hexDigitU (b % 16)]

/-- Rust `urlencoding::encode`: percent-encoding of the UTF-8 bytes of a
string (used by `encrypt_w` for `pt ∈ {"", "0"}`). -/
def percentEncode (s : String) : String :=
  (((strBytes s).map percentEncodeByte).flatten).asString

/-! ## AES-CBC (`src/crypto/aes_enc.rs`) -/

/-- Bytewise xor of two equal-length byte lists (CBC chaining). -/
def xorBytes (a b : List Nat) : List Nat :=
  List.zipWith (fun x y => x ^^^ y) a b

/-- The PKCS#7 padding to 16-byte blocks: append `16 - len % 16` copies of
that same value (always at least one byte). -/
def pkcs7pad (data : List Nat) : List Nat :=
  let padLen := 16 - data.length % 16
  data ++ List.replicate padLen padLen

/-- Split a byte list into consecutive 16-byte chunks (fuel-driven so the
definition reduces by `rfl`; the fuel is the list length). -/
def toBlocksAux : Nat → List Nat → List (List Nat)
  | _, [] => []
  | 0, l => [l]
  | fuel + 1, b :: bs =>
    (b :: bs).take 16 :: toBlocksAux fuel ((b :: bs).drop 16)

/-- Sixteen-byte blocks of a byte list. -/
def toBlocks (l : List Nat) : List (List Nat) := toBlocksAux l.length l

/-- CBC chaining: each plaintext block is xored with the previous
ciphertext block (initially the IV) before the block cipher is applied. -/
def cbcBlocks (enc : List Nat → List Nat) : List Nat → List (List Nat) → List (List Nat)
  | _, [] => []
  | prev, b :: bs =>
    let c := enc (xorBytes prev b)
    c :: cbcBlocks enc c bs

/-- The function `encrypt_aes_cbc` (`src/crypto/aes_enc.rs` lines 16-23): AES-128-CBC
with PKCS#7 padding, key = the 16-character key string's raw bytes, and
the static IV byte literal `b"0000000000000000"` — the ASCII bytes of the
string of sixteen `'0'` characters. The AES-128 block function itself
lives in the external `aes` crate and is a parameter `aesBlock` (key bytes
→ 16-byte block → 16-byte block). -/
def encrypt_aes_cbc (aesBlock : List Nat → List Nat → List Nat)
    (plaintext key : String) : List Nat :=
  let keyBytes := strBytes key
  let iv := strBytes "0000000000000000"
  (cbcBlocks (aesBlock keyBytes) iv (toBlocks (pkcs7pad (strBytes plaintext)))).flatten

/-- Modelled from the spec: the same chained-block encryption with the
all-zero 16-byte initialization vector the spec describes ("all sixteen
IV bytes equal 0"); used to compare against the source's
`encrypt_aes_cbc`. -/
def encrypt_aes_cbc_zero_iv (aesBlock : List Nat → List Nat → List Nat)
    (plaintext key : String) : List Nat :=
  let keyBytes := strBytes key
  let iv := List.replicate 16 0
  (cbcBlocks (aesBlock keyBytes) iv (toBlocks (pkcs7pad (strBytes plaintext)))).flatten

/-- The amended IV description: a fixed 16-byte vector each byte of which
is the ASCII code of `'0'` (48, i.e. 0x30); the encryption otherwise as
the claim states it. -/
def encrypt_aes_cbc_ascii_zero_iv (aesBlock : List Nat → List Nat → List Nat)
    (plaintext key : String) : List Nat :=
  let keyBytes := strBytes key
  let iv := List.replicate 16 48
  (cbcBlocks (aesBlock keyBytes) iv (toBlocks (pkcs7pad (strBytes plaintext)))).flatten

/-! ## RSA (`src/crypto/rsa_enc.rs`) -/

/-- Geetest's fixed RSA public key modulus, hex-encoded
(`src/crypto/rsa_enc.rs` line 7). -/
def MODULUS_HEX : String :=
  "00C1E3934D1614465B33053E7F48EE4EC87B14B95EF88947713D25EECBFF7E74C7977D02DC1D9451F79DD5D1C10C29ACB6A9B4D6FB7D0A0279B6719E1772565F09AF627715919221AEF91899CAE08C0D686D748B20A3603BE2318CA6BC2B59706592A9219D0BF05C9F65023A21D2330807252AE0066D59CEEFA5F2748EA80BAB81"

/-- Value of a hex digit character (either case). -/
def hexCharVal (c : Char) : Nat :=
  if c.isDigit then c.toNat - 48
  else if 'a' ≤ c then c.toNat - 87
  else c.toNat - 55

/-- Numeric value of a hex string. -/
def hexToNat (s : String) : Nat :=
  s.data.foldl (fun a c => a * 16 + hexCharVal c) 0

/-- The 1024-bit RSA modulus as a number. -/
def RSA_N : Nat := hexToNat MODULUS_HEX

/-- RSA public exponent (`src/crypto/rsa_enc.rs` line 10). -/
def RSA_E : Nat := 65537

/-- Numeric value of a big-endian byte list. -/
def bytesToNat (l : List Nat) : Nat :=
  l.foldl (fun a b => a * 256 + b) 0

/-- The number `n` written as exactly `k` big-endian bytes (an RSA
ciphertext is serialized at the fixed key size: 128 bytes for this
modulus). -/
def natToBytesBE (k n : Nat) : List Nat :=
  (List.range k).map (fun i => n / 256 ^ (k - 1 - i) % 256)

/-- Square-and-multiply modular exponentiation, fuelled by the bit length
of the exponent (structural, so it reduces by `rfl`). -/
def powMod : Nat → Nat → Nat → Nat → Nat
  | 0, _, _, m => 1 % m
  | fuel + 1, b, e, m =>
    if e = 0 then 1 % m
    else
      let h := powMod fuel (b * b % m) (e / 2) m
      if e % 2 = 1 then b * h % m else h

/-- Modelled from the spec: `encrypt_rsa` (`src/crypto/rsa_enc.rs` lines
19-31) delegates PKCS#1 v1.5 encryption to the external `rsa` crate (not
under `src/`): the encryption block is `00 02 ‖ random nonzero padding ‖
00 ‖ message`, raised to the public exponent modulo the fixed 1024-bit
modulus, serialized as 128 big-endian bytes and hex-encoded. The random
padding bytes are the explicit parameter `padBytes`. -/
def encrypt_rsa (padBytes : List Nat) (message : String) : String :=
  let em := [0, 2] ++ padBytes ++ [0] ++ strBytes message
  let c := powMod 32 (bytesToNat em) RSA_E RSA_N
  hexEncode (natToBytesBE 128 c)

/-! ## Encryption dispatch (`src/crypto/mod.rs`) -/

/-- The error enum of `src/error.rs`, with foreign error payloads
(`rquest`, `serde_json`, `std::io`, `regex`) carried as their display
strings. -/
inductive GeekedError where
  | HttpError (msg : String)
  | VerificationFailed (message : String)
  | UnsupportedType (t : String)
  | Deobfuscation (msg : String)
  | Encryption (msg : String)
  | ImageProcessing (msg : String)
  | JsonError (msg : String)
  | IoError (msg : String)
  | RegexError (msg : String)
  | InvalidResponse (msg : String)
  | CacheError (msg : String)
deriving DecidableEq

/-- The dispatcher `encrypt_w` (`src/crypto/mod.rs` lines 24-45): identity/percent-encode
for `pt ∈ {"", "0"}`, hybrid AES+RSA for `pt = "1"` (ciphertext hex then
RSA hex, concatenated with no delimiter), explicit unsupported-mode error
for `pt = "2"`, unknown-type error otherwise. The Rust `match` on `&str`
literals is equality dispatch, written here as the equivalent `if`
chain. The random 16-character session key `random_uid` and the RSA
padding bytes are explicit parameters. -/
def encrypt_w (aesBlock : List Nat → List Nat → List Nat) (padBytes : List Nat)
    (random_uid : String) (raw_input pt : String) : Except GeekedError String :=
  if pt = "" ∨ pt = "0" then
    .ok (percentEncode raw_input)
  else if pt = "1" then
    .ok (hexEncode (encrypt_aes_cbc aesBlock raw_input random_uid) ++
      encrypt_rsa padBytes random_uid)
  else if pt = "2" then
    .error (.Encryption "Encryption type 2 (SM2) is not implemented yet")
  else
    .error (.Encryption ("Unknown encryption type: " ++ pt))

/-! ## The verification session retry loop (`src/client.rs`) -/

/-- The struct `PowDetail` (`src/models.rs` lines 77-82). -/
structure PowDetail where
  hashfunc : String
  version : String
  bits : Nat
  datetime : String
deriving DecidableEq

/-- The struct `LoadResponse` (`src/models.rs` lines 56-73), restricted to the fields
the signing path reads (the category-specific image/board fields are
consumed only by the external solver). -/
structure LoadResponse where
  lot_number : String
  payload : String
  process_token : String
  pt : String
  pow_detail : PowDetail
deriving DecidableEq

/-- The struct `SecCode` (`src/models.rs` lines 39-45). -/
structure SecCode where
  captcha_id : String
  lot_number : String
  pass_token : String
  gen_time : String
  captcha_output : String
deriving DecidableEq

/-- The struct `VerifyResponse` (`src/models.rs` lines 93-112). -/
structure VerifyResponse where
  seccode : Option SecCode
  result : Option String
  score : Option String
  payload : Option String
  process_token : Option String
  payload_protocol : Option String
  lot_number : Option String
deriving DecidableEq

/-- The mutable retry state of `Geeked::solve` (`src/client.rs` lines
374-378): the current lot number, payload, process token and `w`
string. -/
structure LoopState where
  lot_number : String
  payload : String
  process_token : String
  current_w : String
deriving DecidableEq

/-- One `submit_captcha` call's arguments (`src/client.rs` lines
306-338). -/
structure SubmitCall where
  lot_number : String
  payload : String
  process_token : String
  w : String
deriving DecidableEq

/-- The state overwrite of a "continue" response (`src/client.rs` lines
400-409): any of payload/process_token/lot_number present in the response
replaces the stored value; omitted fields keep their previous value. -/
def applyContinue (st : LoopState) (resp : VerifyResponse) : LoopState :=
  { st with
    payload := resp.payload.getD st.payload
    process_token := resp.process_token.getD st.process_token
    lot_number := resp.lot_number.getD st.lot_number }

/-- The bound `MAX_RETRIES` (`src/client.rs` line 381). -/
def MAX_RETRIES : Nat := 10

/-- The `for attempt in 0..MAX_RETRIES` retry loop of `Geeked::solve`
(`src/client.rs` lines 380-434), one recursion step per iteration; `fuel`
is the number of remaining iterations and `attempt` the iteration index.
The external pieces are oracles: `responses` maps the attempt index to the
parsed verify response (transport and JSONP-envelope errors, which abort
the session unchanged, are outside this model), and `genW` is
`generate_w_parameter` (`src/sign.rs` lines 148-253) as a function of the
`LoadResponse` it is handed and the optional solver result — note the
source passes the original `data`, never the updated retry state, to
`generate_w_parameter` (`src/client.rs` lines 413-419). Returns the list
of submit calls made and the terminal outcome. -/
def solveLoop {σ : Type} (genW : LoadResponse → Option σ → String)
    (data : LoadResponse) (responses : Nat → VerifyResponse) :
    Nat → Nat → LoopState → List SubmitCall × Except GeekedError SecCode
  | 0, _, _ =>
    ([], .error (.VerificationFailed
      ("Max retries (" ++ toString MAX_RETRIES ++ ") exceeded")))
  | fuel + 1, attempt, st =>
    let resp := responses attempt
    let call : SubmitCall := ⟨st.lot_number, st.payload, st.process_token, st.current_w⟩
    match resp.seccode with
    | some sec => ([call], .ok sec)
    | none =>
      if resp.result = some "continue" then
        let st' := applyContinue st resp
        let st'' := { st' with current_w := genW data none }
        let rest := solveLoop genW data responses fuel (attempt + 1) st''
        (call :: rest.1, rest.2)
      else
        ([call], .error (.VerificationFailed
          (resp.result.getD "Unknown verification error")))

/-- The entry point `Geeked::solve` after the load and solver phases (`src/client.rs`
lines 352-435): the initial `w` is generated from the load data with the
solver result (`Some(solver_result)`, the only call that receives it);
the loop then runs with `MAX_RETRIES` fuel from attempt 0. -/
def geekedSolve {σ : Type} (genW : LoadResponse → Option σ → String)
    (data : LoadResponse) (responses : Nat → VerifyResponse)
    (solver_result : σ) : List SubmitCall × Except GeekedError SecCode :=
  solveLoop genW data responses MAX_RETRIES 0
    ⟨data.lot_number, data.payload, data.process_token, genW data (some solver_result)⟩

/-! ## LotParser lemmas and claims C7..C10 -/

/-- Claim-side slice semantics: the substring `lot_number[start..end+1]`
with inclusive end index, in the usual clamped (Python-style) sense. -/
def specSlice (lot_number : String) (s e : Nat) : String :=
  ((lot_number.data.drop s).take (e + 1 - s)).asString

theorem rustSlice_eq_drop_take (cs : List Char) (sl : Nat × Nat) :
    rustSlice cs sl = (cs.drop sl.1).take (sl.2 + 1 - sl.1) := by
  unfold rustSlice
  by_cases h : sl.1 ≤ min (sl.2 + 1) cs.length
  · simp only [if_pos h]
    rw [List.take_eq_take]
    simp only [List.length_drop]
    omega
  · simp only [if_neg h]
    rcases Nat.lt_or_ge sl.1 cs.length with h1 | h1
    · have he : sl.2 + 1 - sl.1 = 0 := by omega
      rw [he, List.take_zero]
    · rw [List.drop_eq_nil_of_le h1, List.take_nil]

/-- C7: for every compiled slicing program and every lot number, evaluation
builds one string per group by taking, for each `(start, end)` pair, the
slice `lot_number[start..end+1]` (inclusive end index), concatenating the
slices of the group in order, and joining the per-group strings with the
separator `"."`. -/
theorem build_string_is_sliced_groups (parsed : List (List (Nat × Nat)))
    (lot_number : String) :
    build_string parsed lot_number =
      String.intercalate "."
        (parsed.map fun group =>
          String.join (group.map fun sl => specSlice lot_number sl.1 sl.2)) := by
  simp only [build_string, rustSlice_eq_drop_take, specSlice]

/-- C10: evaluation of a compiled slice over a lot number is total: the
extraction never fails — a slice whose start index is at or beyond the end
of the lot number contributes the empty string, and in every case the
result is the drop/take expression whose upper index is the end index
clamped to the lot number's length. -/
theorem rustSlice_total_and_clamped (lot_number : String) (s e : Nat) :
    (lot_number.data.length ≤ s → rustSlice lot_number.data (s, e) = []) ∧
    rustSlice lot_number.data (s, e) =
      (lot_number.data.drop s).take (min (e + 1) lot_number.data.length - s) := by
  constructor
  · intro h
    rw [rustSlice_eq_drop_take, List.drop_eq_nil_of_le h, List.take_nil]
  · unfold rustSlice
    by_cases h : s ≤ min (e + 1) lot_number.data.length
    · simp only [if_pos h]
    · simp only [if_neg h]
      rcases Nat.lt_or_ge s lot_number.data.length with h1 | h1
      · have he : min (e + 1) lot_number.data.length - s = 0 := by omega
        rw [he, List.take_zero]
      · rw [List.drop_eq_nil_of_le h1, List.take_nil]

/-- Witness for C10 at a concrete input: for the two-character lot number
`"ab"` and the pair `(5, 7)`, the start index is past the end, so the
slice is empty, and the clamped drop/take expression agrees. -/
theorem rustSlice_total_and_clamped_witness :
    rustSlice "ab".data (5, 7) = [] ∧
    rustSlice "ab".data (5, 7) =
      ("ab".data.drop 5).take (min (7 + 1) "ab".data.length - 5) :=
  ⟨(rustSlice_total_and_clamped "ab" 5 7).1 (by decide),
   (rustSlice_total_and_clamped "ab" 5 7).2⟩

/-- C8 counterexample: for a `LotParser` whose compiled key-program is the
empty segment list, `get_dict` does not yield an empty structure — the key
string is `""`, Rust's `"".split('.')` yields `[""]`, and the result is a
mapping with one entry whose key is the empty string (the
`parts.is_empty()` guard in the source is dead code, since `split` always
yields at least one piece). -/
theorem get_dict_empty_program_not_empty :
    get_dict ⟨[], []⟩ "f4744c44df4541b3be48c5c270ced20b" = .obj [("", .str "")] ∧
    topEntries (get_dict ⟨[], []⟩ "f4744c44df4541b3be48c5c270ced20b") ≠ 0 :=
  ⟨rfl, by decide⟩

/-- C8 (amended): for a `LotParser` whose compiled key-program is empty,
`get_dict` yields a mapping with exactly one entry, whose key is the empty
string and whose value is the value-program's string. -/
theorem get_dict_empty_program_single_entry
    (lot_res : List (List (Nat × Nat))) (lot_number : String) :
    get_dict ⟨[], lot_res⟩ lot_number =
      .obj [("", .str (build_string lot_res lot_number))] := rfl

/-- C9: compiling the key pattern
`(n[13:15]+n[3:5])+.+(n[1:3]+n[26:28])+.+(n[20:27])` yields a key-program
with exactly 3 groups of sizes `[2, 2, 1]` (groups separated by the
literal token `+.+`, slices within a group separated by `+`). -/
theorem parse_pattern_reference_mapping :
    parse_pattern "(n[13:15]+n[3:5])+.+(n[1:3]+n[26:28])+.+(n[20:27])" =
      [[(13, 15), (3, 5)], [(1, 3), (26, 28)], [(20, 27)]] ∧
    (parse_pattern "(n[13:15]+n[3:5])+.+(n[1:3]+n[26:28])+.+(n[20:27])").map
        List.length = [2, 2, 1] :=
  ⟨by decide, by decide⟩

/-! ## Proof-of-work lemmas and claim C2 -/

theorem getElem?_some_mem {α : Type} :
    ∀ (l : List α) (i : Nat) (a : α), l[i]? = some a → a ∈ l := by
  intro l
  induction l with
  | nil => intro i a h; simp at h
  | cons x xs ih =>
    intro i a h
    cases i with
    | zero => simp at h; simp [h]
    | succ j =>
      simp only [List.getElem?_cons_succ] at h
      exact List.mem_cons_of_mem _ (ih j a h)

theorem powSearch_some (hashHex : String → String) (powBase : String)
    (pfx : List Char) (rem div : Nat) :
    ∀ ns r, powSearch hashHex powBase pfx rem div ns = some r →
      r.pow_sign = hashHex r.pow_msg ∧
      verify_pow r.pow_sign.data pfx rem div = true := by
  intro ns
  induction ns with
  | nil => intro r h; simp [powSearch] at h
  | cons n rest ih =>
    intro r h
    simp only [powSearch] at h
    split at h
    · cases h
      exact ⟨rfl, by assumption⟩
    · exact ih r h

theorem startsWithChars_replicate_zero :
    ∀ (n : Nat) (hash : List Char),
      startsWithChars hash (List.replicate n '0') = true →
      ∀ i, i < n → hash[i]? = some '0' := by
  intro n
  induction n with
  | zero => intro hash _ i hi; omega
  | succ m ih =>
    intro hash h i hi
    cases hash with
    | nil => simp [List.replicate_succ, startsWithChars] at h
    | cons c cs =>
      rw [List.replicate_succ, startsWithChars] at h
      simp only [Bool.and_eq_true, decide_eq_true_eq] at h
      cases i with
      | zero => simp [h.1]
      | succ j =>
        simpa using ih cs h.2 j (by omega)

theorem verify_pow_true_next_nibble (hash pfx : List Char) (rem div : Nat)
    (h : verify_pow hash pfx rem div = true) (hr : rem ≠ 0) :
    ∃ c, hash[div]? = some c ∧
      ((rem = 1 ∧ c ≤ '7') ∨ (rem = 2 ∧ c ≤ '3') ∨ (rem = 3 ∧ c ≤ '1')) := by
  unfold verify_pow at h
  by_cases hs : startsWithChars hash pfx
  · rw [hs] at h
    simp only [Bool.not_true, Bool.false_eq_true, if_false, if_neg hr] at h
    cases hc : hash[div]? with
    | none => rw [hc] at h; simp at h
    | some c =>
      rw [hc] at h
      refine ⟨c, rfl, ?_⟩
      match rem, hr with
      | 1, _ => exact Or.inl ⟨rfl, by simpa using h⟩
      | 2, _ => exact Or.inr (Or.inl ⟨rfl, by simpa using h⟩)
      | 3, _ => exact Or.inr (Or.inr ⟨rfl, by simpa using h⟩)
      | m + 4, _ => simp at h
  · rw [Bool.not_eq_true] at hs
    rw [hs] at h
    simp at h

theorem verify_pow_true_startsWith (hash pfx : List Char) (rem div : Nat)
    (h : verify_pow hash pfx rem div = true) :
    startsWithChars hash pfx = true := by
  unfold verify_pow at h
  by_cases hs : startsWithChars hash pfx
  · exact hs
  · rw [Bool.not_eq_true] at hs
    rw [hs] at h
    simp at h

theorem hex_char_le7 (c : Char) (hc : c ∈ hexDigitChars) (hle : c ≤ '7') :
    hexNibbleVal c ≤ 7 := by
  simp only [hexDigitChars] at hc
  fin_cases hc <;> revert hle <;> decide

theorem hex_char_le3 (c : Char) (hc : c ∈ hexDigitChars) (hle : c ≤ '3') :
    hexNibbleVal c ≤ 3 := by
  simp only [hexDigitChars] at hc
  fin_cases hc <;> revert hle <;> decide

theorem hex_char_le1 (c : Char) (hc : c ∈ hexDigitChars) (hle : c ≤ '1') :
    hexNibbleVal c ≤ 1 := by
  simp only [hexDigitChars] at hc
  fin_cases hc <;> revert hle <;> decide

/-- C2: whenever the proof-of-work search returns a result, the returned
`PowResult` satisfies the bit constraint: `pow_sign` is the digest of
`pow_msg` under the (abstract) named hash function, its first `bits / 4`
hex nibbles are zero, and if `bits` is not a multiple of 4 the next nibble
is numerically at most the threshold given by the remainder (1 → 7,
2 → 3, 3 → 1); the engine never returns a signature failing this
constraint. The hypothesis `hhex` records that digests are lowercase hex
strings. -/
theorem generate_pow_bit_constraint
    (hashHex : String → String) (nonces : List String)
    (lot_number captcha_id hash_func version : String) (bits : Nat)
    (datetime : String) (r : PowResult)
    (hhex : ∀ s : String, ∀ c ∈ (hashHex s).data, c ∈ hexDigitChars)
    (hret : generate_pow hashHex nonces lot_number captcha_id hash_func
      version bits datetime = some r) :
    r.pow_sign = hashHex r.pow_msg ∧
    (∀ i, i < bits / 4 → r.pow_sign.data[i]? = some '0') ∧
    (bits % 4 ≠ 0 → ∃ c, r.pow_sign.data[bits / 4]? = some c ∧
      hexNibbleVal c ≤ nibbleThreshold (bits % 4)) := by
  unfold generate_pow at hret
  have hmain := powSearch_some _ _ _ _ _ _ _ hret
  refine ⟨hmain.1, ?_, ?_⟩
  · exact startsWithChars_replicate_zero (bits / 4) r.pow_sign.data
      (verify_pow_true_startsWith _ _ _ _ hmain.2)
  · intro hrem
    obtain ⟨c, hc, hcase⟩ := verify_pow_true_next_nibble _ _ _ _ hmain.2 hrem
    have hmem : c ∈ hexDigitChars := by
      have : c ∈ (hashHex r.pow_msg).data := by
        rw [← hmain.1]
        exact getElem?_some_mem _ _ _ hc
      exact hhex _ _ this
    refine ⟨c, hc, ?_⟩
    rcases hcase with ⟨h1, hle⟩ | ⟨h2, hle⟩ | ⟨h3, hle⟩
    · rw [h1]; exact hex_char_le7 c hmem hle
    · rw [h2]; exact hex_char_le3 c hmem hle
    · rw [h3]; exact hex_char_le1 c hmem hle

/-- Witness for C2 at a concrete input: with the constant digest `"07ff"`
(a lowercase-hex string), one nonce `"n0"` and `bits = 5`, the search
returns `⟨"v|5|md5|dt|cid|lot||n0", "07ff"⟩`, and the conclusion holds:
the first nibble is zero and the next nibble `7 ≤ 7`. -/
theorem generate_pow_bit_constraint_witness :
    "07ff" = "07ff" ∧
    (∀ i, i < 5 / 4 → "07ff".data[i]? = some '0') ∧
    (5 % 4 ≠ 0 → ∃ c, "07ff".data[5 / 4]? = some c ∧
      hexNibbleVal c ≤ nibbleThreshold (5 % 4)) :=
  generate_pow_bit_constraint (fun _ => "07ff") ["n0"] "lot" "cid" "md5" "v"
    5 "dt" ⟨"v|5|md5|dt|cid|lot||n0", "07ff"⟩
    (fun _ => (by decide : ∀ c ∈ "07ff".data, c ∈ hexDigitChars)) (by decide)

/-! ## Crypto lemmas and claims C3, C5, C6 -/

/-- C3 counterexample: the source's CBC encryption does not use an
all-zero IV. Instantiating the abstract block cipher with one that leaks
its input (so the two IVs are distinguishable), the source function and
the all-zero-IV construction the claim describes produce different
ciphertexts on the same plaintext and key: the first padded block is xored
with sixteen `0x30` bytes, not sixteen zero bytes. -/
theorem encrypt_aes_cbc_iv_not_all_zero :
    encrypt_aes_cbc (fun _ b => b) "x" "0123456789abcdef" ≠
      encrypt_aes_cbc_zero_iv (fun _ b => b) "x" "0123456789abcdef" := by
  decide

/-- C3 (amended): when `protocol_type` is `"1"`, the symmetric encryption
of the serialized payload is a 128-bit block cipher in chained-block (CBC)
mode with PKCS#7 padding, a 128-bit key equal to the 16-character session
key's raw bytes, and a fixed 16-byte initialization vector whose bytes
are all `0x30` — the ASCII bytes of the string `"0000000000000000"` — not
all zero. -/
theorem encrypt_aes_cbc_spec (aesBlock : List Nat → List Nat → List Nat)
    (plaintext key : String) :
    encrypt_aes_cbc aesBlock plaintext key =
      encrypt_aes_cbc_ascii_zero_iv aesBlock plaintext key ∧
    strBytes "0000000000000000" = List.replicate 16 48 := by
  constructor
  · unfold encrypt_aes_cbc encrypt_aes_cbc_ascii_zero_iv
    rw [show strBytes "0000000000000000" = List.replicate 16 48 from by decide]
  · decide

/-- C5: the dispatch behavior of `encrypt_w`: for `pt ∈ {"", "0"}` it
returns exactly the percent-encoding of the plaintext; for `pt = "2"` it
fails with the unsupported-mode error; and it fails (returns an error,
never a string) exactly when `pt` is a non-empty value other than `"0"`
and `"1"`. -/
theorem encrypt_w_dispatch (aesBlock : List Nat → List Nat → List Nat)
    (padBytes : List Nat) (random_uid raw_input pt : String) :
    ((pt = "" ∨ pt = "0") →
      encrypt_w aesBlock padBytes random_uid raw_input pt =
        .ok (percentEncode raw_input)) ∧
    (pt = "2" →
      encrypt_w aesBlock padBytes random_uid raw_input pt =
        .error (.Encryption "Encryption type 2 (SM2) is not implemented yet")) ∧
    ((∃ err, encrypt_w aesBlock padBytes random_uid raw_input pt = .error err) ↔
      (pt ≠ "" ∧ pt ≠ "0" ∧ pt ≠ "1")) := by
  refine ⟨?_, ?_, ?_, ?_⟩
  · intro h
    unfold encrypt_w
    rw [if_pos h]
  · rintro rfl
    rfl
  · rintro ⟨err, he⟩
    by_cases h0 : pt = "" ∨ pt = "0"
    · unfold encrypt_w at he
      rw [if_pos h0] at he
      exact absurd he (by simp)
    · by_cases h1 : pt = "1"
      · subst h1
        exact absurd he (by simp [encrypt_w])
      · push_neg at h0
        exact ⟨h0.1, h0.2, h1⟩
  · rintro ⟨h1, h2, h3⟩
    unfold encrypt_w
    rw [if_neg (by tauto), if_neg h3]
    by_cases h4 : pt = "2"
    · rw [if_pos h4]
      exact ⟨_, rfl⟩
    · rw [if_neg h4]
      exact ⟨_, rfl⟩

/-- Witness for C5 at concrete inputs: `pt = ""` percent-encodes, and
`pt = "2"` yields the unsupported-mode error. -/
theorem encrypt_w_dispatch_witness :
    encrypt_w (fun _ b => b) [] "k" "a b" "" = .ok (percentEncode "a b") ∧
    encrypt_w (fun _ b => b) [] "k" "a b" "2" =
      .error (.Encryption "Encryption type 2 (SM2) is not implemented yet") :=
  ⟨(encrypt_w_dispatch (fun _ b => b) [] "k" "a b" "").1 (Or.inl rfl),
   (encrypt_w_dispatch (fun _ b => b) [] "k" "a b" "2").2.1 rfl⟩

theorem hexEncode_chars_length (bs : List Nat) :
    ((bs.map byteHexChars).flatten).length = 2 * bs.length := by
  induction bs with
  | nil => rfl
  | cons b rest ih =>
    simp only [List.map_cons, List.flatten_cons, List.length_append, ih,
      List.length_cons]
    have h1 : (byteHexChars b).length = 2 := rfl
    rw [h1]
    ring

theorem hexEncode_length (bs : List Nat) :
    (hexEncode bs).length = 2 * bs.length := by
  have : (hexEncode bs).length = ((bs.map byteHexChars).flatten).length := rfl
  rw [this, hexEncode_chars_length]

theorem cbcBlocks_flatten_length (enc : List Nat → List Nat)
    (h : ∀ b, (enc b).length = 16) :
    ∀ (bs : List (List Nat)) (iv : List Nat),
      ((cbcBlocks enc iv bs).flatten).length = 16 * bs.length := by
  intro bs
  induction bs with
  | nil => intro iv; rfl
  | cons b rest ih =>
    intro iv
    simp only [cbcBlocks, List.flatten_cons, List.length_append, h, ih,
      List.length_cons]
    ring

theorem natToBytesBE_length (k n : Nat) : (natToBytesBE k n).length = k := by
  simp [natToBytesBE]

theorem encrypt_rsa_length (padBytes : List Nat) (message : String) :
    (encrypt_rsa padBytes message).length = 256 := by
  unfold encrypt_rsa
  rw [hexEncode_length, natToBytesBE_length]

/-- C6: for every plaintext, `encrypt_w` with `pt = "1"` returns the hex
encoding of the block-cipher ciphertext concatenated with the hex-encoded
RSA ciphertext of the session key, with no length prefix between them; the
result's length is `2 * cipher_len_bytes + 256` hex characters, where
`cipher_len_bytes` is a multiple of 16 and the RSA part is always exactly
256 hex characters for the fixed 1024-bit modulus. The hypothesis `henc`
records that the 128-bit block cipher produces 16-byte blocks. -/
theorem encrypt_w_hybrid_shape (aesBlock : List Nat → List Nat → List Nat)
    (padBytes : List Nat) (random_uid raw_input : String)
    (henc : ∀ k b, (aesBlock k b).length = 16) :
    encrypt_w aesBlock padBytes random_uid raw_input "1" =
      .ok (hexEncode (encrypt_aes_cbc aesBlock raw_input random_uid) ++
        encrypt_rsa padBytes random_uid) ∧
    (encrypt_aes_cbc aesBlock raw_input random_uid).length % 16 = 0 ∧
    (encrypt_rsa padBytes random_uid).length = 256 ∧
    (hexEncode (encrypt_aes_cbc aesBlock raw_input random_uid) ++
        encrypt_rsa padBytes random_uid).length =
      2 * (encrypt_aes_cbc aesBlock raw_input random_uid).length + 256 := by
  refine ⟨rfl, ?_, encrypt_rsa_length padBytes random_uid, ?_⟩
  · unfold encrypt_aes_cbc
    rw [cbcBlocks_flatten_length (aesBlock (strBytes random_uid)) (henc _)]
    exact Nat.mul_mod_right 16 _
  · rw [String.length_append, hexEncode_length, encrypt_rsa_length]

/-- Witness for C6 at a concrete input: a constant 16-byte block cipher,
empty padding bytes, session key `"k"` and plaintext `"a"`. -/
theorem encrypt_w_hybrid_shape_witness :
    encrypt_w (fun _ _ => List.replicate 16 0) [] "k" "a" "1" =
      .ok (hexEncode (encrypt_aes_cbc (fun _ _ => List.replicate 16 0) "a" "k") ++
        encrypt_rsa [] "k") ∧
    (encrypt_aes_cbc (fun _ _ => List.replicate 16 0) "a" "k").length % 16 = 0 ∧
    (encrypt_rsa [] "k").length = 256 ∧
    (hexEncode (encrypt_aes_cbc (fun _ _ => List.replicate 16 0) "a" "k") ++
        encrypt_rsa [] "k").length =
      2 * (encrypt_aes_cbc (fun _ _ => List.replicate 16 0) "a" "k").length + 256 :=
  encrypt_w_hybrid_shape (fun _ _ => List.replicate 16 0) [] "k" "a"
    (fun _ _ => by simp)

/-! ## Retry-loop lemmas and claims C1, C4 -/

theorem solveLoop_all_continue {σ : Type} (genW : LoadResponse → Option σ → String)
    (data : LoadResponse) (responses : Nat → VerifyResponse) :
    ∀ (fuel attempt : Nat) (st : LoopState),
      (∀ i, attempt ≤ i → i < attempt + fuel →
        (responses i).seccode = none ∧ (responses i).result = some "continue") →
      (solveLoop genW data responses fuel attempt st).1.length = fuel ∧
      (solveLoop genW data responses fuel attempt st).2 =
        .error (.VerificationFailed
          ("Max retries (" ++ toString MAX_RETRIES ++ ") exceeded")) := by
  intro fuel
  induction fuel with
  | zero => intro attempt st _; exact ⟨rfl, rfl⟩
  | succ n ih =>
    intro attempt st h
    have h0 := h attempt (Nat.le_refl _) (by omega)
    have ih' := ih (attempt + 1)
      ({ applyContinue st (responses attempt) with
         current_w := genW data none })
      (fun i h1 h2 => h i (by omega) (by omega))
    simp only [solveLoop, h0.1, h0.2, if_true, List.length_cons]
    exact ⟨by rw [ih'.1], ih'.2⟩

theorem solveLoop_length_le {σ : Type} (genW : LoadResponse → Option σ → String)
    (data : LoadResponse) (responses : Nat → VerifyResponse) :
    ∀ (fuel attempt : Nat) (st : LoopState),
      (solveLoop genW data responses fuel attempt st).1.length ≤ fuel := by
  intro fuel
  induction fuel with
  | zero => intro _ _; exact Nat.le_refl 0
  | succ n ih =>
    intro attempt st
    simp only [solveLoop]
    cases hsc : (responses attempt).seccode with
    | some sec => simp
    | none =>
      by_cases hr : (responses attempt).result = some "continue"
      · simp only [if_pos hr, List.length_cons]
        exact Nat.succ_le_succ (ih _ _)
      · simp [hr]

/-- C4: if 10 consecutive verify responses each carry no security code and
result `"continue"`, the session performs exactly 10 submit calls and then
terminates with the distinct "max retries exceeded" failure — a message
different from the generic server-reported failure text (a server-reported
failure carries the response's own `result` string instead); and against
any response oracle whatsoever the session makes at most 10 submit
calls. -/
theorem solve_max_retries_bound {σ : Type}
    (genW : LoadResponse → Option σ → String) (data : LoadResponse)
    (responses : Nat → VerifyResponse) (solver_result : σ)
    (h : ∀ i, i < 10 →
      (responses i).seccode = none ∧ (responses i).result = some "continue") :
    (geekedSolve genW data responses solver_result).1.length = 10 ∧
    (geekedSolve genW data responses solver_result).2 =
      .error (.VerificationFailed "Max retries (10) exceeded") ∧
    "Max retries (10) exceeded" ≠ "Unknown verification error" ∧
    (∀ responses' : Nat → VerifyResponse,
      (geekedSolve genW data responses' solver_result).1.length ≤ 10) := by
  have hmain := solveLoop_all_continue genW data responses MAX_RETRIES 0
    ⟨data.lot_number, data.payload, data.process_token, genW data (some solver_result)⟩
    (fun i _ h2 => h i (by simpa [MAX_RETRIES] using h2))
  refine ⟨hmain.1, ?_, by decide,
    fun responses' => solveLoop_length_le genW data responses' MAX_RETRIES 0 _⟩
  rw [show (geekedSolve genW data responses solver_result).2 =
    (solveLoop genW data responses MAX_RETRIES 0
      ⟨data.lot_number, data.payload, data.process_token,
        genW data (some solver_result)⟩).2 from rfl, hmain.2]
  rfl

/-- Witness for C4 at a concrete input: every response is a bare
`continue`; the session makes exactly 10 submit calls and fails with the
max-retries message. -/
theorem solve_max_retries_bound_witness :
    (geekedSolve (σ := Unit) (fun d _ => d.lot_number)
      ⟨"A", "p", "t", "1", ⟨"md5", "v", 0, "dt"⟩⟩
      (fun _ => ⟨none, some "continue", none, none, none, none, none⟩)
      ()).1.length = 10 ∧
    (geekedSolve (σ := Unit) (fun d _ => d.lot_number)
      ⟨"A", "p", "t", "1", ⟨"md5", "v", 0, "dt"⟩⟩
      (fun _ => ⟨none, some "continue", none, none, none, none, none⟩)
      ()).2 = .error (.VerificationFailed "Max retries (10) exceeded") ∧
    "Max retries (10) exceeded" ≠ "Unknown verification error" ∧
    (∀ responses' : Nat → VerifyResponse,
      (geekedSolve (σ := Unit) (fun d _ => d.lot_number)
        ⟨"A", "p", "t", "1", ⟨"md5", "v", 0, "dt"⟩⟩
        responses' ()).1.length ≤ 10) :=
  solve_max_retries_bound (fun d _ => d.lot_number)
    ⟨"A", "p", "t", "1", ⟨"md5", "v", 0, "dt"⟩⟩
    (fun _ => ⟨none, some "continue", none, none, none, none, none⟩) ()
    (fun _ _ => ⟨rfl, rfl⟩)

/-- C1 (code bug exhibition): the continue-retry loop regenerates the `w`
parameter from the ORIGINAL load data, not from the most recently updated
`lot_number`/`payload`/`process_token`. Here `genW` tags its output with
whether the solver result was passed (`"S"`/`"N"`) and with the lot number
of the `LoadResponse` it received. The load's lot number is `"A"`; the
first verify response is a `continue` carrying the new lot number `"B"`.
The trace shows: the second submit call carries the updated lot number
`"B"` (the state overwrite and the solver-once behavior of the claim hold
— the retry `w` is regenerated without the solver, tag `"N"`), yet its
`w` parameter is `"NA"`, regenerated from the original lot `"A"`, where
the claim requires regeneration from the updated lot (`"NB"`). The second
response (no seccode, no result) then fails with the generic message. -/
theorem solve_retry_regenerates_from_original_lot :
    (geekedSolve (σ := Unit)
      (fun d o => (if o.isSome then "S" else "N") ++ d.lot_number)
      ⟨"A", "p", "t", "1", ⟨"md5", "v", 0, "dt"⟩⟩
      (fun i => if i = 0 then ⟨none, some "continue", none, none, none, none, some "B"⟩
                else ⟨none, none, none, none, none, none, none⟩)
      ()).1 = [⟨"A", "p", "t", "SA"⟩, ⟨"B", "p", "t", "NA"⟩] ∧
    "NA" ≠ "NB" ∧
    (geekedSolve (σ := Unit)
      (fun d o => (if o.isSome then "S" else "N") ++ d.lot_number)
      ⟨"A", "p", "t", "1", ⟨"md5", "v", 0, "dt"⟩⟩
      (fun i => if i = 0 then ⟨none, some "continue", none, none, none, none, some "B"⟩
                else ⟨none, none, none, none, none, none, none⟩)
      ()).2 = .error (.VerificationFailed "Unknown verification error") := by
  refine ⟨by decide, by decide, by rfl⟩

end ChaserGT
